import Mathlib

/-! Shallow embedding of the tiktok-mp4-api server (app.py): filename
sanitization, metadata extraction with rendition selection, the TTL cache,
the two-strategy download materializer, and the two API endpoints, together
with theorems settling the specification's claims about them. -/

/-- Characters removed by Python str.strip: every code point whose
str.isspace() is true — the ASCII whitespace characters tab, LF, VT, FF, CR,
space, the information separators U+001C-U+001F, next line U+0085, no-break
space U+00A0, and the Unicode space and line/paragraph separators. -/
def pyWhitespace : List Char :=
  [Char.ofNat 0x09, Char.ofNat 0x0a, Char.ofNat 0x0b, Char.ofNat 0x0c, Char.ofNat 0x0d,
   Char.ofNat 0x1c, Char.ofNat 0x1d, Char.ofNat 0x1e, Char.ofNat 0x1f, Char.ofNat 0x20,
   Char.ofNat 0x85, Char.ofNat 0xa0, Char.ofNat 0x1680,
   Char.ofNat 0x2000, Char.ofNat 0x2001, Char.ofNat 0x2002, Char.ofNat 0x2003,
   Char.ofNat 0x2004, Char.ofNat 0x2005, Char.ofNat 0x2006, Char.ofNat 0x2007,
   Char.ofNat 0x2008, Char.ofNat 0x2009, Char.ofNat 0x200a, Char.ofNat 0x2028,
   Char.ofNat 0x2029, Char.ofNat 0x202f, Char.ofNat 0x205f, Char.ofNat 0x3000]

/-- Python s.strip(): remove leading and trailing whitespace. -/
def stripChars (s : String) : String :=
  let cs := s.toList.dropWhile (fun c => pyWhitespace.contains c)
  String.mk ((cs.reverse.dropWhile (fun c => pyWhitespace.contains c)).reverse)

/-- Characters matched by the regex [<>:"/\\|?*\n\r\t] in safe_filename. -/
def badChars : List Char := ['<', '>', ':', '"', '/', '\\', '|', '?', '*', '\n', '\r', '\t']

/-- re.sub replacing each matched character with an underscore. -/
def sanitizeChars (s : String) : String :=
  String.mk (s.toList.map (fun c => if badChars.contains c then '_' else c))

/-- safe_filename from app.py: Python-or of name and fallback, strip, replace
illegal characters, truncate the base to 100 characters, fall back when the
base is empty, append ".mp4". -/
def safe_filename (name : Option String) (fallback : String) : String :=
  let nm := match name with
    | some s => if s = "" then fallback else s
    | none => fallback
  let base := sanitizeChars (stripChars nm)
  let base := String.mk (base.toList.take 100)
  (if base = "" then fallback else base) ++ ".mp4"

/-- Python truthiness of an optional string (None and the empty string are falsy). -/
def pyTruthy : Option String → Bool
  | none => false
  | some s => s != ""

/-- Python x or y on optional strings: keep x only when truthy. -/
def truthyStr : Option String → Option String
  | none => none
  | some s => if s = "" then none else some s

/-- One yt-dlp format descriptor, restricted to the fields the server reads. -/
structure Fmt where
  ext : Option String
  vcodec : Option String
  url : Option String
  height : Option ℤ
  fps : Option ℤ
  tbr : Option ℤ
deriving DecidableEq

/-- Sort key (height, fps, tbr) with missing values treated as 0. -/
def fmtKey (f : Fmt) : ℤ × ℤ × ℤ :=
  (f.height.getD 0, f.fps.getD 0, f.tbr.getD 0)

/-- Lexicographic strict order on sort keys (Python tuple comparison). -/
def keyLt (a b : ℤ × ℤ × ℤ) : Prop :=
  a.1 < b.1 ∨ (a.1 = b.1 ∧ (a.2.1 < b.2.1 ∨ (a.2.1 = b.2.1 ∧ a.2.2 < b.2.2)))

instance (a b : ℤ × ℤ × ℤ) : Decidable (keyLt a b) := by
  unfold keyLt; exact inferInstance

/-- Head of the list after Python's stable descending sort by fmtKey: the
first element attaining the maximal key. -/
def selectMaxFmt : List Fmt → Option Fmt
  | [] => none
  | f :: fs =>
    match selectMaxFmt fs with
    | none => some f
    | some g => if keyLt (fmtKey f) (fmtKey g) then some g else some f

/-- Python substring containment (needle in haystack) on character lists. -/
def containsSub (n : List Char) : List Char → Bool
  | [] => n.isEmpty
  | c :: t => n.isPrefixOf (c :: t) || containsSub n t

/-- Membership in the preferred rendition set: container mp4 and a video
codec string containing the substring avc. -/
def isPref (f : Fmt) : Bool :=
  (f.ext == some "mp4") && containsSub "avc".toList (f.vcodec.getD "").toList

/-- One extraction-result item with the fields extract_info reads; ext is
doubly optional to distinguish a missing key from an explicit null value. -/
structure InfoItem where
  title : Option String
  id : Option String
  ext : Option (Option String)
  width : Option ℤ
  height : Option ℤ
  duration : Option ℤ
  url : Option String
  requested_formats : List Fmt
  formats : List Fmt
deriving DecidableEq

/-- Raw extractor output: a playlist (non-empty entries) or a single item. -/
structure RawInfo where
  entries : List InfoItem
  item : InfoItem
deriving DecidableEq

/-- Playlist unwrap: info = info["entries"][0] when entries is non-empty. -/
def resolveItem (r : RawInfo) : InfoItem :=
  match r.entries with
  | [] => r.item
  | e :: _ => e

/-- URL of the first requested format, when the list is non-empty. -/
def headUrl : List Fmt → Option String
  | [] => none
  | v :: _ => v.url

/-- Direct-URL selection of extract_info (app.py lines 95-109), transliterated:
the requested-formats head URL, then the top-level URL when the current value
is falsy, then the formats scan when the current value is still falsy. -/
def selectDirect (info : InfoItem) : Option String :=
  let d1 := headUrl info.requested_formats
  let d2 := if !pyTruthy d1 && pyTruthy info.url then info.url else d1
  if !pyTruthy d2 && !info.formats.isEmpty then
    match selectMaxFmt (info.formats.filter isPref) with
    | some m => m.url
    | none =>
      match selectMaxFmt (info.formats.filter (fun f => pyTruthy f.url)) with
      | some m => m.url
      | none => d2
  else d2

/-- JSON body of the metadata endpoint. -/
structure MetaOut where
  title : Option String
  id : Option String
  ext : Option String
  width : Option ℤ
  height : Option ℤ
  duration : Option ℤ
  direct_url : Option String
deriving DecidableEq

/-- extract_info from app.py: unwrap entries, select a direct URL, build the
response body; ext defaults to "mp4" only when the key is absent. -/
def extract_info (r : RawInfo) : MetaOut :=
  let info := resolveItem r
  { title := info.title
    id := info.id
    ext := info.ext.getD (some "mp4")
    width := info.width
    height := info.height
    duration := info.duration
    direct_url := selectDirect info }

/-- One cache row: stored value and absolute expiry time. -/
structure CacheRow where
  val : MetaOut
  exp : ℤ
deriving DecidableEq

/-- The in-memory cache map, keyed by source URL. -/
abbrev Cache := List (String × CacheRow)

/-- Dictionary lookup in the cache map. -/
def lookupC (c : Cache) (u : String) : Option CacheRow :=
  match c with
  | [] => none
  | p :: t => if p.1 == u then some p.2 else lookupC t u

/-- Dictionary pop of a key from the cache map. -/
def popC (c : Cache) (u : String) : Cache :=
  match c with
  | [] => []
  | p :: t => if p.1 == u then popC t u else p :: popC t u

/-- TTL_SECONDS = 600 from app.py. -/
def TTL_SECONDS : ℤ := 600

/-- cache_get from app.py: miss on an absent row; an expired row is popped
and reported as a miss; otherwise the stored value is returned unchanged. -/
def cache_get (now : ℤ) (c : Cache) (u : String) : Option MetaOut × Cache :=
  match lookupC c u with
  | none => (none, c)
  | some row => if now > row.exp then (none, popC c u) else (some row.val, c)

/-- cache_set from app.py: store the value with expiry now + TTL_SECONDS. -/
def cache_set (now : ℤ) (c : Cache) (u : String) (v : MetaOut) : Cache :=
  (u, ⟨v, now + TTL_SECONDS⟩) :: popC c u

/-- Outcome of one YoutubeDL download attempt, as the code observes it:
whether the library raised, the filepath field of the first requested
download (when any), and the temporary-directory listing scanned afterwards. -/
structure DLAttempt where
  raises : Bool
  requested_downloads : List (Option String)
  listing : List String
deriving DecidableEq

/-- Environment of one call to yt_dlp_download_to_temp: the temporary
directory, the filesystem existence predicate, and the observable outcome
of each of the two strategies. -/
structure DLEnv where
  tmpdir : String
  fsExists : String → Bool
  attemptA : DLAttempt
  attemptB : DLAttempt

/-- os.path.join of the temporary directory and a listed name. -/
def joinPath (d n : String) : String := d ++ "/" ++ n

/-- Lowercase an ASCII character (Python str.lower on ASCII input). -/
def lowerChar (c : Char) : Char :=
  if 65 ≤ c.toNat ∧ c.toNat ≤ 90 then Char.ofNat (c.toNat + 32) else c

/-- Lowercase a string character by character. -/
def lowerStr (s : String) : String := String.mk (s.toList.map lowerChar)

/-- Bool test that one string ends with another, on character lists. -/
def endsWithStr (s suf : String) : Bool := suf.toList.isSuffixOf s.toList

/-- First directory entry whose lowercased name ends in ".mp4". -/
def findMp4 (listing : List String) : Option String :=
  listing.find? (fun n => endsWithStr (lowerStr n) ".mp4")

/-- Filepath of the first requested download when present, truthy, and
existing on the filesystem (the early-return branch of try_download). -/
def rdPath (fs : String → Bool) (a : DLAttempt) : Option String :=
  match a.requested_downloads with
  | [] => none
  | p :: _ =>
    match p with
    | some q => if q != "" && fs q then some q else none
    | none => none

/-- try_download from app.py: None when the library raises; else the first
requested download's filepath when truthy and existing; else the first .mp4
in the temporary directory; else None. -/
def tryDownload (fs : String → Bool) (tmpdir : String) (a : DLAttempt) : Option String :=
  if a.raises then none
  else
    match rdPath fs a with
    | some q => some q
    | none =>
      match findMp4 a.listing with
      | some n => some (joinPath tmpdir n)
      | none => none

/-- The user-facing failure message of the download materializer. -/
def dlFailMsg : String := "Download failed (ffmpeg missing or unsupported format)."

/-- The two download strategies, in the order the code tries them. -/
inductive Strategy where
  | A
  | B
deriving DecidableEq

deriving instance DecidableEq for Except

/-- Result of yt_dlp_download_to_temp: HTTP-style error or (path, filename),
whether the temporary directory was removed, and the strategies attempted. -/
structure DLOutcome where
  result : Except (ℤ × String) (String × String)
  tmpdirRemoved : Bool
  attempts : List Strategy
deriving DecidableEq

/-- os.path.basename: the part after the last slash. -/
def basename (p : String) : String :=
  match (p.splitOn "/").getLast? with
  | some s => s
  | none => p

/-- Index of the last dot in a character list, if any. -/
def lastDotIdx (cs : List Char) : Option ℕ :=
  match cs.reverse.findIdx? (fun c => c == '.') with
  | some i => some (cs.length - 1 - i)
  | none => none

/-- Base part of os.path.splitext: drop the extension after the last dot,
where the leading dots of the name never start an extension. -/
def splitextBase (s : String) : String :=
  let cs := s.toList
  let lead := (cs.takeWhile (fun c => c == '.')).length
  match lastDotIdx (cs.drop lead) with
  | none => s
  | some i => String.mk (cs.take (lead + i))

/-- Name passed to safe_filename: the truthy hint, or the file's base name
without its extension (title_hint or os.path.splitext(os.path.basename(p))[0]). -/
def suggestName (title_hint : Option String) (p : String) : String :=
  match truthyStr title_hint with
  | some s => s
  | none => splitextBase (basename p)

/-- yt_dlp_download_to_temp from app.py: try Strategy A, then Strategy B only
when A produced nothing; when neither produced an existing file, remove the
temporary directory and fail with status 400 and dlFailMsg; otherwise derive
the suggested filename from the hint or the file's base name. -/
def yt_dlp_download_to_temp (env : DLEnv) (title_hint : Option String) : DLOutcome :=
  let r1 := tryDownload env.fsExists env.tmpdir env.attemptA
  let pr : Option String × List Strategy :=
    match r1 with
    | some p => (some p, [Strategy.A])
    | none => (tryDownload env.fsExists env.tmpdir env.attemptB, [Strategy.A, Strategy.B])
  match pr with
  | (none, ats) => ⟨Except.error (400, dlFailMsg), true, ats⟩
  | (some p, ats) =>
    if env.fsExists p then
      ⟨Except.ok (p, safe_filename (some (suggestName title_hint p)) "video"), false, ats⟩
    else ⟨Except.error (400, dlFailMsg), true, ats⟩

/-- Observable cache and extractor operations performed by an endpoint. -/
inductive CacheOp where
  | read (u : String)
  | write (u : String)
  | extract (u : String)
deriving DecidableEq

/-- The /api/tiktok endpoint: one cache read; on a miss, run the extractor
(its exception propagating) and cache the result only on success. The final
cache map and the trace of operations are returned alongside the response. -/
def api_tiktok (now : ℤ) (c : Cache) (ydl : String → Except Unit RawInfo)
    (url : String) : Except Unit MetaOut × Cache × List CacheOp :=
  match cache_get now c url with
  | (some v, c1) => (Except.ok v, c1, [CacheOp.read url])
  | (none, c1) =>
    match ydl url with
    | Except.error e => (Except.error e, c1, [CacheOp.read url, CacheOp.extract url])
    | Except.ok raw =>
      let data := extract_info raw
      (Except.ok data, cache_set now c1 url data,
        [CacheOp.read url, CacheOp.extract url, CacheOp.write url])

/-- Failure modes of the download endpoint: an uncaught extractor exception,
or the materializer's HTTP-style error. -/
inductive DLErr where
  | extractorRaised
  | http (code : ℤ) (msg : String)
deriving DecidableEq

/-- The /api/tiktok/download endpoint: extract metadata directly (no cache),
derive the filename hint from title-or-id, and run the materializer. The
final cache map and the trace of operations are returned alongside. -/
def api_tiktok_download (c : Cache) (ydl : String → Except Unit RawInfo)
    (denv : DLEnv) (url : String) :
    Except DLErr (String × String) × Cache × List CacheOp :=
  match ydl url with
  | Except.error _ => (Except.error DLErr.extractorRaised, c, [CacheOp.extract url])
  | Except.ok raw =>
    let meta := extract_info raw
    let hint : Option String :=
      match truthyStr meta.title with
      | some t => some t
      | none => meta.id
    match (yt_dlp_download_to_temp denv hint).result with
    | Except.error e => (Except.error (DLErr.http e.1 e.2), c, [CacheOp.extract url])
    | Except.ok pf => (Except.ok pf, c, [CacheOp.extract url])

/-- Rendition Selection exactly as claim C1 words it: a non-empty
requested_formats list always supplies the fetch URL of its first element;
only otherwise is the top-level URL, then the descriptor scan, consulted. -/
def claimSelectOrig (info : InfoItem) : Option String :=
  match info.requested_formats with
  | v :: _ => v.url
  | [] =>
    if pyTruthy info.url then info.url
    else
      match selectMaxFmt (info.formats.filter isPref) with
      | some m => m.url
      | none =>
        match selectMaxFmt (info.formats.filter (fun f => pyTruthy f.url)) with
        | some m => m.url
        | none => none

/-- Rendition Selection as amended: steps 1 and 2 commit only when they
produce a non-empty URL; otherwise the descriptor scan of steps 3-4 runs. -/
def claimSelectAmended (info : InfoItem) : Option String :=
  if pyTruthy (headUrl info.requested_formats) then headUrl info.requested_formats
  else if pyTruthy info.url then info.url
  else
    match selectMaxFmt (info.formats.filter isPref) with
    | some m => m.url
    | none =>
      match selectMaxFmt (info.formats.filter (fun f => pyTruthy f.url)) with
      | some m => m.url
      | none => none

/-- No URL field of the extraction result is the empty string (URL fields are
either absent or non-empty). -/
def NoEmptyUrls (info : InfoItem) : Prop :=
  info.url ≠ some "" ∧ (∀ f ∈ info.requested_formats, f.url ≠ some "") ∧
    ∀ f ∈ info.formats, f.url ≠ some ""

instance (info : InfoItem) : Decidable (NoEmptyUrls info) := by
  unfold NoEmptyUrls; exact inferInstance

theorem pyTruthy_false_eq_none {o : Option String} (h : pyTruthy o = false)
    (hne : o ≠ some "") : o = none := by
  cases o with
  | none => rfl
  | some s =>
    simp [pyTruthy] at h
    exact absurd (by rw [h]) hne

theorem pyTruthy_none : pyTruthy none = false := rfl

theorem selectMaxFmt_nil : selectMaxFmt [] = none := rfl

theorem selectMaxFmt_mem : ∀ {l : List Fmt} {m : Fmt}, selectMaxFmt l = some m → m ∈ l := by
  intro l
  induction l with
  | nil => intro m h; simp [selectMaxFmt] at h
  | cons f fs ih =>
    intro m h
    rw [selectMaxFmt] at h
    split at h
    · simp at h
      simp [h]
    next g hg =>
      by_cases hk : keyLt (fmtKey f) (fmtKey g)
      · rw [if_pos hk] at h
        exact List.mem_cons_of_mem f (ih (hg.trans h))
      · rw [if_neg hk] at h
        simp at h
        simp [h]

/-- A format with no readable fields at all. -/
def fmtNoUrl : Fmt := ⟨none, none, none, none, none, none⟩

/-- Extraction result whose requested_formats head has no URL while a
top-level URL is present. -/
def infoC1 : InfoItem :=
  { title := none, id := none, ext := none, width := none, height := none,
    duration := none, url := some "http://top",
    requested_formats := [fmtNoUrl], formats := [] }

/-- Claim C1 counterexample: on a result with a non-empty requested_formats
list whose first element has no fetch URL, the code does not return that
(absent) URL but falls through to the top-level URL, so the selection differs
from the claimed order at this input. -/
theorem rendition_requested_first_cex :
    infoC1.requested_formats ≠ [] ∧ headUrl infoC1.requested_formats = none ∧
    selectDirect infoC1 = some "http://top" ∧ claimSelectOrig infoC1 = none ∧
    selectDirect infoC1 ≠ claimSelectOrig infoC1 := by decide

/-- Claim C1 (amended): when no URL field is an empty string, Rendition
Selection follows the order: the first requested format's URL when it has
one, else the top-level URL when present, else the maximal preferred
(mp4 and avc) descriptor's URL, else the maximal descriptor with a URL,
else null. -/
theorem rendition_selection_amended (info : InfoItem) (h : NoEmptyUrls info) :
    selectDirect info = claimSelectAmended info := by
  obtain ⟨hu, hrf, _⟩ := h
  by_cases ht1 : pyTruthy (headUrl info.requested_formats) = true
  · simp [selectDirect, claimSelectAmended, ht1]
  · have ht1f : pyTruthy (headUrl info.requested_formats) = false :=
      Bool.eq_false_iff.mpr ht1
    have hd1 : headUrl info.requested_formats = none := by
      apply pyTruthy_false_eq_none ht1f
      cases hrfs : info.requested_formats with
      | nil => simp [headUrl]
      | cons v t =>
        simp [headUrl]
        exact hrf v (by rw [hrfs]; exact List.mem_cons_self v t)
    by_cases ht2 : pyTruthy info.url = true
    · simp [selectDirect, claimSelectAmended, hd1, pyTruthy_none, ht2]
    · have ht2f : pyTruthy info.url = false := Bool.eq_false_iff.mpr ht2
      have hun : info.url = none := pyTruthy_false_eq_none ht2f hu
      cases hfs : info.formats with
      | nil =>
        simp [selectDirect, claimSelectAmended, hd1, hun, hfs, pyTruthy_none,
          selectMaxFmt_nil]
      | cons f t =>
        simp [selectDirect, claimSelectAmended, hd1, hun, hfs, pyTruthy_none]

/-- Non-degenerate input for the amended claim C1 theorem. -/
def infoW1 : InfoItem :=
  { title := none, id := none, ext := none, width := none, height := none,
    duration := none, url := none, requested_formats := [],
    formats := [⟨some "mp4", some "avc1", some "u480", some 480, none, none⟩,
      ⟨some "mp4", some "avc1", some "u1080", some 1080, none, none⟩,
      ⟨some "webm", some "vp9", some "uw", some 2160, none, none⟩] }

/-- Claim C1 amended-theorem witness at a concrete input. -/
theorem rendition_selection_amended_w :
    NoEmptyUrls infoW1 ∧ selectDirect infoW1 = claimSelectAmended infoW1 :=
  ⟨by decide, rendition_selection_amended infoW1 (by decide)⟩

/-- Extraction result whose preferred maximal descriptor has an empty URL
while another descriptor carries a non-empty one. -/
def infoC7 : InfoItem :=
  { title := none, id := none, ext := none, width := none, height := none,
    duration := none, url := none, requested_formats := [],
    formats := [⟨some "mp4", some "avc1", some "", some 480, none, none⟩,
      ⟨some "webm", some "vp9", some "uu", some 1080, none, none⟩] }

/-- Claim C7 counterexample: the selection returns the empty string taken
from a preferred descriptor whose fetch URL is empty, that is, a non-null
direct URL that is not the non-empty fetch URL of any descriptor. -/
theorem selection_empty_url_cex :
    selectDirect infoC7 = some "" ∧ (selectDirect infoC7).isSome = true ∧
    ∀ f ∈ infoC7.formats,
      ¬(pyTruthy f.url = true ∧ f.url = selectDirect infoC7) := by decide

/-- Claim C7 (amended): when steps 1-2 yield nothing, every non-empty direct
URL the selection produces is the fetch URL of some descriptor in the list
(the selection may still return the empty string taken from a preferred
descriptor whose URL field is the empty string). -/
theorem selection_url_from_descriptor (info : InfoItem) (s : String)
    (h1 : pyTruthy (headUrl info.requested_formats) = false)
    (h2 : pyTruthy info.url = false)
    (hs : s ≠ "")
    (hsel : selectDirect info = some s) :
    ∃ f ∈ info.formats, f.url = some s := by
  have hcontra : headUrl info.requested_formats = some s → False := by
    intro hh
    rw [hh] at h1
    simp [pyTruthy, hs] at h1
  unfold selectDirect at hsel
  simp only [h2, Bool.and_false, Bool.false_eq_true, if_false] at hsel
  split at hsel
  · split at hsel
    next m hm =>
      exact ⟨m, (List.mem_filter.mp (selectMaxFmt_mem hm)).1, hsel⟩
    next hp =>
      split at hsel
      next m hm =>
        exact ⟨m, (List.mem_filter.mp (selectMaxFmt_mem hm)).1, hsel⟩
      next hq => exact absurd hsel.symm (fun hh => hcontra hh.symm)
  · exact absurd hsel.symm (fun hh => hcontra hh.symm)

/-- Input with a single usable preferred descriptor for the claim C7 witness. -/
def infoW7 : InfoItem :=
  { title := none, id := none, ext := none, width := none, height := none,
    duration := none, url := none, requested_formats := [],
    formats := [⟨some "mp4", some "avc1", some "u1", some 480, none, none⟩] }

/-- Claim C7 amended-theorem witness at a concrete input. -/
theorem selection_url_from_descriptor_w :
    ∃ f ∈ infoW7.formats, f.url = some "u1" :=
  selection_url_from_descriptor infoW7 "u1" (by decide) (by decide)
    (by decide) (by decide)

/-- Claim C8: with steps 1-2 yielding nothing, a non-empty preferred set
whose maximal element has no fetch URL makes the selection return null,
with no fallback to the any-descriptor step. -/
theorem pref_max_missing_url_null (info : InfoItem) (m : Fmt)
    (h1 : pyTruthy (headUrl info.requested_formats) = false)
    (h2 : pyTruthy info.url = false)
    (hm : selectMaxFmt (info.formats.filter isPref) = some m)
    (hmu : m.url = none) :
    selectDirect info = none := by
  have hne : info.formats.isEmpty = false := by
    have hmem := (List.mem_filter.mp (selectMaxFmt_mem hm)).1
    cases hfs : info.formats with
    | nil => rw [hfs] at hmem; simp at hmem
    | cons f t => simp [hfs]
  unfold selectDirect
  simp [h1, h2, hm, hmu, hne]

/-- Input whose preferred maximum lacks a URL while another descriptor with a
non-empty URL is present, for the claim C8 witness. -/
def infoW8 : InfoItem :=
  { title := none, id := none, ext := none, width := none, height := none,
    duration := none, url := none, requested_formats := [],
    formats := [⟨some "mp4", some "avc1", none, some 480, none, none⟩,
      ⟨some "webm", some "vp9", some "uu", some 1080, none, none⟩] }

/-- Claim C8 witness at a concrete input. -/
theorem pref_max_missing_url_null_w : selectDirect infoW8 = none :=
  pref_max_missing_url_null infoW8 ⟨some "mp4", some "avc1", none, some 480, none, none⟩
    (by decide) (by decide) (by decide) (by decide)

/-- Filename sanitization as claim C3 words it: replace every occurrence of
each illegal character with an underscore, truncate to 100 characters, fall
back to "video" when empty, append ".mp4" — with no whitespace stripping. -/
def claimSanitize (s : String) : String :=
  let base := String.mk ((sanitizeChars s).toList.take 100)
  (if base = "" then "video" else base) ++ ".mp4"

/-- Claim C3 counterexample: a leading tab is stripped by the code, not
replaced by an underscore, so the output differs from the claimed pure
replace-then-truncate transformation at this input. -/
theorem safe_filename_strip_cex :
    claimSanitize "\ta" = "_a.mp4" ∧ safe_filename (some "\ta") "video" = "a.mp4" ∧
    safe_filename (some "\ta") "video" ≠ claimSanitize "\ta" := by decide

theorem safe_filename_shape (name : Option String) (fb : String) (hfb : fb ≠ "")
    (hlen : fb.length ≤ 100) :
    ∃ b, safe_filename name fb = b ++ ".mp4" ∧ b.length ≤ 100 ∧ b ≠ "" := by
  unfold safe_filename
  dsimp only
  by_cases hb : String.mk ((sanitizeChars (stripChars (match name with
      | some s => if s = "" then fb else s
      | none => fb))).toList.take 100) = ""
  · exact ⟨fb, by rw [if_pos hb], hlen, hfb⟩
  · refine ⟨_, by rw [if_neg hb], ?_, hb⟩
    show (String.mk _).length ≤ 100
    have h1 : ∀ l : List Char, (String.mk l).length = l.length := fun l => rfl
    rw [h1, List.length_take]
    exact min_le_left _ _

/-- Claim C3 (amended): the code first strips leading and trailing whitespace
and only then performs the claimed replace-truncate-fallback-append
transformation; on inputs without surrounding whitespace the two coincide;
the output base is always non-empty, at most 100 characters, and ".mp4" is
appended; the claimed concrete example holds. -/
theorem safe_filename_spec (s : String) (hs : stripChars s = s) :
    safe_filename (some s) "video" = claimSanitize s ∧
    safe_filename (some "My: Video? <Test>") "video" = "My_ Video_ _Test_.mp4" ∧
    ∀ name : Option String, ∃ b : String,
      safe_filename name "video" = b ++ ".mp4" ∧ b.length ≤ 100 ∧ b ≠ "" := by
  refine ⟨?_, by decide, fun name => safe_filename_shape name "video" (by decide) (by decide)⟩
  by_cases hse : s = ""
  · subst hse; decide
  · simp [safe_filename, claimSanitize, hse, hs]

/-- Claim C3 amended-theorem witness at a concrete input. -/
theorem safe_filename_spec_w :
    stripChars "a<b>c" = "a<b>c" ∧
    (safe_filename (some "a<b>c") "video" = claimSanitize "a<b>c" ∧
      safe_filename (some "My: Video? <Test>") "video" = "My_ Video_ _Test_.mp4" ∧
      ∀ name : Option String, ∃ b : String,
        safe_filename name "video" = b ++ ".mp4" ∧ b.length ≤ 100 ∧ b ≠ "") :=
  ⟨by decide, safe_filename_spec "a<b>c" (by decide)⟩

theorem lookupC_popC_self (c : Cache) (u : String) : lookupC (popC c u) u = none := by
  induction c with
  | nil => rfl
  | cons p t ih =>
    by_cases hp : (p.1 == u) = true
    · simp [popC, hp, ih]
    · have hpf : (p.1 == u) = false := Bool.eq_false_iff.mpr hp
      simp [popC, lookupC, hpf, ih]

theorem lookupC_popC_ne (c : Cache) (u k : String) (hk : k ≠ u) :
    lookupC (popC c u) k = lookupC c k := by
  induction c with
  | nil => rfl
  | cons p t ih =>
    by_cases hp : (p.1 == u) = true
    · have hp1 : p.1 = u := by simpa using hp
      have hpk : (p.1 == k) = false := by
        rw [hp1]
        simpa using fun hh => hk hh.symm
      simp [popC, lookupC, hp, hpk, ih]
    · have hpf : (p.1 == u) = false := Bool.eq_false_iff.mpr hp
      by_cases hpk : (p.1 == k) = true
      · simp [popC, lookupC, hpf, hpk]
      · have hpkf : (p.1 == k) = false := Bool.eq_false_iff.mpr hpk
        simp [popC, lookupC, hpf, hpkf, ih]

theorem lookupC_cache_set_self (now : ℤ) (c : Cache) (u : String) (v : MetaOut) :
    lookupC (cache_set now c u v) u = some ⟨v, now + TTL_SECONDS⟩ := by
  simp [cache_set, lookupC]

/-- Claim C5: an entry stored at time T is served by lookups at any time up
to T+600 and is reported absent — and dropped from the map — at any later
time; in general a lookup never serves an entry past its stored expiry. -/
theorem cache_ttl (T t : ℤ) (c : Cache) (u : String) (v : MetaOut) :
    (t ≤ T + 600 → (cache_get t (cache_set T c u v) u).1 = some v) ∧
    (t > T + 600 → (cache_get t (cache_set T c u v) u).1 = none ∧
      lookupC (cache_get t (cache_set T c u v) u).2 u = none) ∧
    (∀ c' u' w, (cache_get t c' u').1 = some w →
      ∃ row, lookupC c' u' = some row ∧ t ≤ row.exp ∧ w = row.val) := by
  refine ⟨?_, ?_, ?_⟩
  · intro h
    have hn : ¬ t > T + TTL_SECONDS := by
      unfold TTL_SECONDS
      exact not_lt.mpr h
    simp [cache_get, lookupC_cache_set_self, hn]
  · intro h
    have hp : t > T + TTL_SECONDS := by unfold TTL_SECONDS; exact h
    simp [cache_get, lookupC_cache_set_self, hp, lookupC_popC_self]
  · intro c' u' w h
    cases hl : lookupC c' u' with
    | none => simp [cache_get, hl] at h
    | some row =>
      simp only [cache_get, hl] at h
      by_cases hexp : t > row.exp
      · rw [if_pos hexp] at h
        simp at h
      · rw [if_neg hexp] at h
        simp at h
        exact ⟨row, rfl, not_lt.mp hexp, h.symm⟩

/-- An arbitrary concrete metadata value used by cache witnesses. -/
def metaEx : MetaOut := ⟨some "t", some "i", some "mp4", none, none, none, none⟩

/-- Claim C5 witness at concrete times and cache. -/
theorem cache_ttl_w :
    ((600:ℤ) ≤ 0 + 600 ∧ (cache_get 600 (cache_set 0 [] "u" metaEx) "u").1 = some metaEx) ∧
    (∀ c' u' w, (cache_get 600 c' u').1 = some w →
      ∃ row, lookupC c' u' = some row ∧ (600:ℤ) ≤ row.exp ∧ w = row.val) :=
  ⟨⟨by decide, (cache_ttl 0 600 [] "u" metaEx).1 (by decide)⟩,
   (cache_ttl 0 600 [] "u" metaEx).2.2⟩

/-- Claim C9: a successful (unexpired) cache read returns the stored value
and leaves the whole map — hence the entry's value and expiry — unchanged. -/
theorem cache_get_no_refresh (now : ℤ) (c : Cache) (u : String) (row : CacheRow)
    (hl : lookupC c u = some row) (hv : ¬ now > row.exp) :
    cache_get now c u = (some row.val, c) ∧ lookupC (cache_get now c u).2 u = some row := by
  have h1 : cache_get now c u = (some row.val, c) := by
    simp [cache_get, hl, hv]
  exact ⟨h1, by rw [h1]; exact hl⟩

/-- Concrete cache with one live entry for the claim C9 witness. -/
def cacheC9 : Cache := [("u", ⟨metaEx, 100⟩)]

/-- Claim C9 witness at a concrete cache and time. -/
theorem cache_get_no_refresh_w :
    cache_get 50 cacheC9 "u" = (some metaEx, cacheC9) ∧
    lookupC (cache_get 50 cacheC9 "u").2 "u" = some ⟨metaEx, 100⟩ :=
  cache_get_no_refresh 50 cacheC9 "u" ⟨metaEx, 100⟩ (by decide) (by decide)

/-- Cache holding an entry that is already expired at the request time. -/
def cacheC4 : Cache := [("u", ⟨metaEx, 10⟩)]

/-- Extractor that raises on every URL. -/
def ydlRaise : String → Except Unit RawInfo := fun _ => Except.error ()

/-- Claim C4 counterexample: with an expired entry present and the extractor
raising, the request still changes the cache map — the initial read lazily
drops the expired entry — contradicting that the whole map is unchanged. -/
theorem cache_error_lazy_expiry_cex :
    ydlRaise "u" = Except.error () ∧
    (api_tiktok 20 cacheC4 ydlRaise "u").1 = Except.error () ∧
    (api_tiktok 20 cacheC4 ydlRaise "u").2.1 = [] ∧
    (api_tiktok 20 cacheC4 ydlRaise "u").2.1 ≠ cacheC4 := by decide

theorem cache_get_miss_snd (now : ℤ) (c : Cache) (u : String)
    (hmiss : (cache_get now c u).1 = none) :
    (cache_get now c u).2 = c ∨
      ∃ row, lookupC c u = some row ∧ now > row.exp ∧ (cache_get now c u).2 = popC c u := by
  cases hl : lookupC c u with
  | none => left; simp [cache_get, hl]
  | some row =>
    by_cases hexp : now > row.exp
    · right
      exact ⟨row, rfl, hexp, by simp [cache_get, hl, hexp]⟩
    · exfalso
      simp [cache_get, hl, hexp] at hmiss

/-- Claim C4 (amended): on a cache miss, a raising extractor causes no cache
write — the trace is read-then-extract only, and the map changes at most by
the lazy removal of the already-expired entry for that URL during the read,
leaving every other key untouched; on a cache miss with successful
extraction, exactly one cache write for that URL occurs, preceded by exactly
one cache read. -/
theorem cache_write_only_on_success (now : ℤ) (c : Cache)
    (ydl : String → Except Unit RawInfo) (url : String)
    (hmiss : (cache_get now c url).1 = none) :
    (∀ e, ydl url = Except.error e →
      (api_tiktok now c ydl url).2.2 = [CacheOp.read url, CacheOp.extract url] ∧
      (api_tiktok now c ydl url).2.1 = (cache_get now c url).2 ∧
      ((cache_get now c url).2 = c ∨ ∃ row, lookupC c url = some row ∧ now > row.exp ∧
        (cache_get now c url).2 = popC c url) ∧
      ∀ k, k ≠ url → lookupC (api_tiktok now c ydl url).2.1 k = lookupC c k) ∧
    (∀ raw, ydl url = Except.ok raw →
      (api_tiktok now c ydl url).2.2 =
        [CacheOp.read url, CacheOp.extract url, CacheOp.write url]) := by
  rcases hgp : cache_get now c url with ⟨o, c2⟩
  have ho : o = none := by
    have h := hmiss
    rw [hgp] at h
    exact h
  subst ho
  have hsnd : c2 = c ∨ ∃ row, lookupC c url = some row ∧ now > row.exp ∧ c2 = popC c url := by
    have h := cache_get_miss_snd now c url hmiss
    rw [hgp] at h
    exact h
  constructor
  · intro e he
    have htr : (api_tiktok now c ydl url).2.2 = [CacheOp.read url, CacheOp.extract url] := by
      simp [api_tiktok, hgp, he]
    have h2 : (api_tiktok now c ydl url).2.1 = c2 := by
      simp [api_tiktok, hgp, he]
    refine ⟨htr, ?_, ?_, ?_⟩
    · simp [h2, hgp]
    · simp only [hgp]
      exact hsnd
    · intro k hk
      rw [h2]
      rcases hsnd with h | ⟨row, _, _, h⟩
      · rw [h]
      · rw [h]
        exact lookupC_popC_ne c url k hk
  · intro raw hraw
    simp [api_tiktok, hgp, hraw]

/-- Claim C4 amended-theorem witness: trace and final cache at a concrete
expired-entry cache with a raising extractor. -/
theorem cache_write_only_on_success_w :
    (api_tiktok 20 cacheC4 ydlRaise "u").2.2 = [CacheOp.read "u", CacheOp.extract "u"] ∧
    (api_tiktok 20 cacheC4 ydlRaise "u").2.1 = (cache_get 20 cacheC4 "u").2 :=
  ⟨((cache_write_only_on_success 20 cacheC4 ydlRaise "u" (by decide)).1 () rfl).1,
   ((cache_write_only_on_success 20 cacheC4 ydlRaise "u" (by decide)).1 () rfl).2.1⟩

theorem rdPath_fs (fs : String → Bool) (a : DLAttempt) (q : String)
    (h : rdPath fs a = some q) : fs q = true := by
  unfold rdPath at h
  cases hrd : a.requested_downloads with
  | nil => simp [hrd] at h
  | cons p0 tail =>
    cases p0 with
    | none => simp [hrd] at h
    | some q2 =>
      cases hcond : (q2 != "" && fs q2) with
      | false => simp [hrd, hcond] at h
      | true =>
        simp [hrd, hcond] at h
        have h2 := hcond
        simp at h2
        subst h
        exact h2.2

theorem findMp4_mem (listing : List String) (n : String) (h : findMp4 listing = some n) :
    n ∈ listing := by
  unfold findMp4 at h
  exact List.mem_of_find?_eq_some h

theorem tryDownload_fs (fs : String → Bool) (tmpdir : String) (a : DLAttempt) (p : String)
    (hcons : ∀ n ∈ a.listing, fs (joinPath tmpdir n) = true)
    (h : tryDownload fs tmpdir a = some p) : fs p = true := by
  unfold tryDownload at h
  by_cases hr : a.raises = true
  · rw [if_pos hr] at h
    exact absurd h (by simp)
  · rw [if_neg hr] at h
    split at h
    next q hq =>
      have hqp : q = p := by injection h
      subst hqp
      exact rdPath_fs fs a q hq
    next hq =>
      split at h
      next n hn =>
        have hjp : joinPath tmpdir n = p := by injection h
        subst hjp
        exact hcons n (findMp4_mem _ _ hn)
      next => exact absurd h (by simp)

/-- Claim C2: Strategy A is attempted first and Strategy B only when A raised
or yielded no existing file; neither strategy is retried; when both yield
nothing the operation fails with status 400 and the exact documented message,
removing the temporary directory; when either strategy yields a file, the
operation succeeds with that path and keeps the directory for delivery. -/
theorem download_two_strategy_order (env : DLEnv) (hint : Option String)
    (hA : ∀ n ∈ env.attemptA.listing, env.fsExists (joinPath env.tmpdir n) = true)
    (hB : ∀ n ∈ env.attemptB.listing, env.fsExists (joinPath env.tmpdir n) = true) :
    ((yt_dlp_download_to_temp env hint).attempts =
      if tryDownload env.fsExists env.tmpdir env.attemptA = none
      then [Strategy.A, Strategy.B] else [Strategy.A]) ∧
    (tryDownload env.fsExists env.tmpdir env.attemptA = none →
      tryDownload env.fsExists env.tmpdir env.attemptB = none →
      (yt_dlp_download_to_temp env hint).result = Except.error (400, dlFailMsg) ∧
      (yt_dlp_download_to_temp env hint).tmpdirRemoved = true) ∧
    (∀ p, tryDownload env.fsExists env.tmpdir env.attemptA = some p →
      (yt_dlp_download_to_temp env hint).result =
        Except.ok (p, safe_filename (some (suggestName hint p)) "video") ∧
      (yt_dlp_download_to_temp env hint).tmpdirRemoved = false) ∧
    (∀ p, tryDownload env.fsExists env.tmpdir env.attemptA = none →
      tryDownload env.fsExists env.tmpdir env.attemptB = some p →
      (yt_dlp_download_to_temp env hint).result =
        Except.ok (p, safe_filename (some (suggestName hint p)) "video") ∧
      (yt_dlp_download_to_temp env hint).tmpdirRemoved = false) := by
  cases hA2 : tryDownload env.fsExists env.tmpdir env.attemptA with
  | some p =>
    have hfs := tryDownload_fs env.fsExists env.tmpdir env.attemptA p hA hA2
    refine ⟨by simp [yt_dlp_download_to_temp, hA2, hfs], ?_, ?_, ?_⟩
    · intro h1 _
      exact Option.noConfusion h1
    · intro p2 hp2
      have hpp : p = p2 := by injection hp2
      subst hpp
      constructor
      · simp [yt_dlp_download_to_temp, hA2, hfs]
      · simp [yt_dlp_download_to_temp, hA2, hfs]
    · intro p2 h1 _
      exact Option.noConfusion h1
  | none =>
    cases hB2 : tryDownload env.fsExists env.tmpdir env.attemptB with
    | some p =>
      have hfs := tryDownload_fs env.fsExists env.tmpdir env.attemptB p hB hB2
      refine ⟨by simp [yt_dlp_download_to_temp, hA2, hB2, hfs], ?_, ?_, ?_⟩
      · intro _ h2
        exact Option.noConfusion h2
      · intro p2 hp2
        exact Option.noConfusion hp2
      · intro p2 _ hp2
        have hpp : p = p2 := by injection hp2
        subst hpp
        constructor
        · simp [yt_dlp_download_to_temp, hA2, hB2, hfs]
        · simp [yt_dlp_download_to_temp, hA2, hB2, hfs]
    | none =>
      refine ⟨by simp [yt_dlp_download_to_temp, hA2, hB2], ?_, ?_, ?_⟩
      · intro _ _
        constructor
        · simp [yt_dlp_download_to_temp, hA2, hB2]
        · simp [yt_dlp_download_to_temp, hA2, hB2]
      · intro p2 hp2
        exact Option.noConfusion hp2
      · intro p2 _ hp2
        exact Option.noConfusion hp2

/-- Environment in which both strategies raise, for the claim C2 witness. -/
def envW2 : DLEnv :=
  ⟨"/tmp/ttdl_x", fun _ => false, ⟨true, [], []⟩, ⟨true, [], []⟩⟩

/-- Claim C2 witness: with both strategies raising, the materializer fails
with the documented 400 error and removes the temporary directory. -/
theorem download_two_strategy_order_w :
    (yt_dlp_download_to_temp envW2 (some "t")).result = Except.error (400, dlFailMsg) ∧
    (yt_dlp_download_to_temp envW2 (some "t")).tmpdirRemoved = true :=
  (download_two_strategy_order envW2 (some "t") (by decide) (by decide)).2.1
    (by decide) (by decide)

/-- Extraction result carrying an explicit null ext value. -/
def infoC6 : InfoItem :=
  { title := none, id := none, ext := some none, width := none, height := none,
    duration := none, url := none, requested_formats := [], formats := [] }

/-- Claim C6 counterexample: a present-but-null ext key in the extractor
result is passed through unchanged, so the response's ext field is null,
contradicting that ext is never null in the response. -/
theorem metadata_ext_null_cex :
    (extract_info ⟨[], infoC6⟩).ext = none := by decide

/-- Claim C6 (amended): the body has exactly the seven fields, ext being the
extractor's ext value when the key is present (even when explicitly null) and
"mp4" when the key is absent; hence ext is non-null in the response whenever
the extractor result does not carry an explicit null ext. -/
theorem metadata_fields (r : RawInfo) :
    extract_info r = ⟨(resolveItem r).title, (resolveItem r).id,
      ((resolveItem r).ext).getD (some "mp4"), (resolveItem r).width,
      (resolveItem r).height, (resolveItem r).duration, selectDirect (resolveItem r)⟩ ∧
    ((resolveItem r).ext ≠ some none → (extract_info r).ext ≠ none) := by
  constructor
  · rfl
  · intro h
    cases he : (resolveItem r).ext with
    | none => simp [extract_info, he]
    | some o =>
      cases o with
      | none => exact absurd he h
      | some s => simp [extract_info, he]

/-- Item with an ordinary string ext for the claim C6 witness. -/
def infoW6 : InfoItem :=
  { title := some "t", id := some "i", ext := some (some "mp4"), width := none,
    height := none, duration := none, url := some "http://u", requested_formats := [],
    formats := [] }

/-- Result with an ordinary string ext for the claim C6 witness. -/
def rawW6 : RawInfo := ⟨[], infoW6⟩

/-- Claim C6 amended-theorem witness at a concrete input. -/
theorem metadata_fields_w :
    (resolveItem rawW6).ext ≠ some none ∧ (extract_info rawW6).ext ≠ none :=
  ⟨by decide, (metadata_fields rawW6).2 (by decide)⟩

/-- Claim C10: the download endpoint performs no cache read or write — the
cache map comes back unchanged and the operation trace holds only the direct
metadata extraction used for the filename hint. -/
theorem download_endpoint_cache_frame (c : Cache) (ydl : String → Except Unit RawInfo)
    (denv : DLEnv) (url : String) :
    (api_tiktok_download c ydl denv url).2.1 = c ∧
    (api_tiktok_download c ydl denv url).2.2 = [CacheOp.extract url] := by
  constructor
  · unfold api_tiktok_download
    cases ydl url with
    | error e => rfl
    | ok raw =>
      dsimp only
      split
      · rfl
      · rfl
  · unfold api_tiktok_download
    cases ydl url with
    | error e => rfl
    | ok raw =>
      dsimp only
      split
      · rfl
      · rfl
